import Mathlib

/-!
Shallow embedding of the kelindar/s3 client core: the multipart uploader
state machine (uploader.go), the seekable file view (file.go), and the
prefix-as-directory listing engine (the Prefix type with ReadDir, Read and
VisitDir).

Modelling conventions:
* Byte strings are `List Nat`.
* Go `int64` / `int` values are `Int`; Go integer division truncates toward
  zero, which is `Int.tdiv`.  Non-negative sizes are `Nat` where the source
  only ever sees non-negative values.
* HTTP requests are abstracted: an operation that performs a request is
  modelled on its success path, or is parametrised by the answer of the server
  (e.g. the `server` function feeding pages to the listing engine, or the
  `httpOK` flag of `Abort`).  The content of the final multipart object is
  the server-side concatenation, in manifest order, of the bytes recorded
  for each part.
* Mutation is explicit state passing: a Go method `func (u *T) M(...) error`
  becomes `T → ... → Option Err × T` (or `Except Err α × T` when it returns
  a value), the returned `T` being the post-state.
-/

namespace S3

/-- Minimum size of every multipart part except the final one
(uploader.go, `MinPartSize = 5 * 1024 * 1024`). -/
def MinPartSize : Nat := 5 * 1024 * 1024

/-- AWS limit on the number of parts (uploader.go, `MaxParts = 10000`). -/
def MaxParts : Nat := 10000

/-- Errors produced by the modelled operations.  `pathErr` mirrors the Go
`fs.PathError` wrapper; `errInvalid` mirrors `fs.ErrInvalid`; `eof` mirrors
`io.EOF`, the end-of-directory sentinel. -/
inductive S3Err where
  | eof : S3Err
  | errInvalid : S3Err
  | notStarted : S3Err
  | alreadyFinished : S3Err
  | httpFail : S3Err
  | sizeBelowMin (size minSize : Int) : S3Err
  | badRange (msg : String) : S3Err
  | invalidSeek (pos : Int) : S3Err
  | pathErr (op p : String) (inner : S3Err) : S3Err
  deriving Repr, DecidableEq

/-- Model of the Go `errors.Is`: an error matches a target if it equals it or
if some error it wraps (here only `fs.PathError.Err`) does. -/
def errorsIs : S3Err → S3Err → Bool
  | S3Err.pathErr op p inner, target =>
    (S3Err.pathErr op p inner == target) || errorsIs inner target
  | e, target => e == target

/-! ## Multipart uploader (uploader.go) -/

/-- A recorded part (uploader.go `tagpart`).  The source stores the ETag the
server returned for the part; since an ETag identifies the uploaded bytes,
the model stores the bytes themselves, and `size` is `data.length`. -/
structure tagpart where
  Num : Int
  data : List Nat
  deriving Repr, DecidableEq

/-- A source object for server-side copies (the fields of `Reader` that
`CopyFrom` consults: the object size and, implicitly via the ETag match,
its content). -/
structure Reader where
  Size : Int
  data : List Nat
  deriving Repr, DecidableEq

/-- The byte range a copy-part copies from the source
(uploader.go `copy`: whole object when `start = end = 0`). -/
def sliceRange (data : List Nat) (start endPos : Int) : List Nat :=
  if start ≠ 0 ∨ endPos ≠ 0 then (data.drop start.toNat).take (endPos - start).toNat
  else data

/-- Mutable state of the uploader (uploader.go `uploader`).  Connection
fields (key, client, bucket, object, host) are omitted: no claim consults
them.  `pending` models background copy-part goroutines that have been
launched but not yet waited on (`bg sync.WaitGroup`); waiting moves them
into `parts`.  The final ETag is server-assigned and not modelled. -/
structure Uploader where
  started : Bool
  finished : Bool
  part : Int
  id : String
  parts : List tagpart
  maxpart : Int
  asyncerr : Option S3Err
  pending : List tagpart
  deriving Repr, DecidableEq

/-- The zero value of `uploader`: the state a fresh uploader starts in. -/
def initUploader : Uploader :=
  { started := false, finished := false, part := 0, id := "",
    parts := [], maxpart := 0, asyncerr := none, pending := [] }

/-- uploader.go `upload` (the part that runs after a 200 response with an
ETag): record the part under the mutex, updating `maxpart` if larger. -/
def uploadPart (u : Uploader) (num : Int) (contents : List Nat) : Uploader :=
  { u with
    maxpart := if num > u.maxpart then num else u.maxpart,
    parts := u.parts ++ [⟨num, contents⟩] }

/-- uploader.go `Upload`: panic (modelled as `notStarted`) before `Start`;
reject parts below `MinPartSize`; otherwise upload and record the part. -/
def Uploader.Upload (u : Uploader) (num : Int) (contents : List Nat) :
    Option S3Err × Uploader :=
  if ¬ u.started then (some S3Err.notStarted, u)
  else if contents.length < MinPartSize then
    (some (S3Err.sizeBelowMin contents.length MinPartSize), u)
  else (none, uploadPart u num contents)

/-- The size selected by uploader.go `CopyFrom`: `end - start` when a range
is given (`start ≠ 0 ∨ end ≠ 0`), the whole source size otherwise. -/
def copySelectedSize (srcSize start endPos : Int) : Int :=
  if start ≠ 0 ∨ endPos ≠ 0 then endPos - start else srcSize

/-- uploader.go `CopyFrom`: validate the range, reject a selected size below
`MinPartSize`, then update `maxpart` *before* launching the background
copy-part (so `Close` can compute the final part number while copies are
still in flight) and launch the copy (append to `pending`). -/
def Uploader.CopyFrom (u : Uploader) (num : Int) (source : Reader)
    (start endPos : Int) : Option S3Err × Uploader :=
  if ¬ u.started then (some S3Err.notStarted, u)
  else if (start ≠ 0 ∨ endPos ≠ 0) ∧ (start < 0 ∨ endPos < 0) then
    (some (S3Err.badRange "start and end values must be positive numbers"), u)
  else if (start ≠ 0 ∨ endPos ≠ 0) ∧ endPos > source.Size then
    (some (S3Err.badRange "end value greater than source size"), u)
  else if copySelectedSize source.Size start endPos < (MinPartSize : Int) then
    (some (S3Err.sizeBelowMin (copySelectedSize source.Size start endPos) MinPartSize), u)
  else
    (none,
      { u with
        maxpart := if num > u.maxpart then num else u.maxpart,
        pending := u.pending ++ [⟨num, sliceRange source.data start endPos⟩] })

/-- uploader.go `Close` (success path of the HTTP requests): upload a
non-empty `final` as part `maxpart + 1` (with *no* minimum-size check), wait
for background copies (`bg.Wait()`, after which `parts` is fully
up-to-date), fail on a buffered `asyncerr`, sort the parts ascending by part
number, and complete.  The returned list is the content of the final object:
the concatenation of the bytes of the parts in manifest order. -/
def Uploader.Close (u : Uploader) (final : List Nat) :
    Except S3Err (List Nat) × Uploader :=
  if ¬ u.started then (Except.error S3Err.notStarted, u)
  else if u.finished then (Except.error S3Err.alreadyFinished, u)
  else
    let u1 := if final.length > 0 then uploadPart u (u.maxpart + 1) final else u
    let u2 := { u1 with parts := u1.parts ++ u1.pending, pending := ([] : List tagpart) }
    match u2.asyncerr with
    | some e => (Except.error e, u2)
    | none =>
      let sorted := List.insertionSort (fun a b : tagpart => a.Num ≤ b.Num) u2.parts
      (Except.ok (sorted.map tagpart.data).flatten,
        { u2 with parts := sorted, finished := true })

/-- uploader.go `Abort`: no-op unless started and unfinished; wait for
background copies; DELETE the upload (`httpOK` is the answer of the server); on
success reset `part`, `started`, `finished`, `id` and `parts` — and nothing
else — to their zero values. -/
def Uploader.Abort (u : Uploader) (httpOK : Bool) : Option S3Err × Uploader :=
  if ¬ u.started ∨ u.finished then (none, u)
  else
    let u1 := { u with parts := u.parts ++ u.pending, pending := ([] : List tagpart) }
    if ¬ httpOK then (some S3Err.httpFail, u1)
    else
      (none,
        { u1 with part := 0, started := false, finished := false, id := "",
                  parts := ([] : List tagpart) })

/-- uploader.go `idealParallel`: worker count for `UploadFrom`.  `res` is 40
unless an Mbps hint is set, in which case it is `Mbps / 800` (Go division
truncates toward zero); a positive part count smaller than `res` wins; a
non-positive `res` is raised to 1. -/
def idealParallel (Mbps : Int) (parts : Int) : Int :=
  let res : Int := if Mbps ≠ 0 then Mbps.tdiv 800 else 40
  if parts < res ∧ parts > 0 then parts
  else if res ≤ 0 then 1
  else res

/-- The clamp the spec describes for the worker count; second definition,
written from the words of the spec `P = clamp(mbps/800, 1, 40)`, for comparison
with `idealParallel`. -/
def specClampParallel (Mbps : Int) : Int :=
  min 40 (max 1 (Mbps.tdiv 800))

/-- The doubling loop of uploader.go `calculatePartSize`:
`for totalSize/partSize > MaxParts { partSize *= 2 }`. -/
def partSizeLoop (totalSize partSize : Nat) : Nat :=
  if totalSize / partSize > MaxParts then partSizeLoop totalSize (partSize * 2)
  else partSize
termination_by totalSize / partSize
decreasing_by
  rename_i h
  simp only [gt_iff_lt, not_lt] at h
  calc totalSize / (partSize * 2) = totalSize / partSize / 2 := by
        rw [Nat.div_div_eq_div_mul]
  _ < totalSize / partSize := Nat.div_lt_self (by omega) (by omega)

/-- uploader.go `calculatePartSize`: start from `MinPartSize` and, when the
total size is positive, keep doubling until at most `MaxParts` parts are
needed.  Total sizes are the non-negative `int64` values, modelled as `Nat`. -/
def calculatePartSize (totalSize : Nat) : Nat :=
  if totalSize > 0 then partSizeLoop totalSize MinPartSize else MinPartSize

/-! ## Seekable file view (file.go) -/

/-- The mutable state of `File` that `Seek` and `Close` touch: the object
size (`Reader.Size`), the read offset `pos`, and whether a body stream is
open (`body != nil`). -/
structure FileState where
  size : Int
  pos : Int
  bodyOpen : Bool
  deriving Repr, DecidableEq

/-- The three valid `whence` values of `Seek` (other values panic). -/
inductive Whence where
  | seekStart : Whence
  | seekCurrent : Whence
  | seekEnd : Whence
  deriving Repr, DecidableEq

/-- The new absolute position `Seek` computes from `(offset, whence)`. -/
def newOffset (f : FileState) (offset : Int) (whence : Whence) : Int :=
  match whence with
  | Whence.seekStart => offset
  | Whence.seekCurrent => f.pos + offset
  | Whence.seekEnd => f.size + offset

/-- file.go `Seek`: reject a new position that is negative or beyond the
object size (returning the unchanged state, as the source returns `f.pos`
with the error); otherwise close the body if the position changed while one
was open, and move to the new position. -/
def FileState.Seek (f : FileState) (offset : Int) (whence : Whence) :
    Except S3Err Int × FileState :=
  let newpos := newOffset f offset whence
  if newpos < 0 ∨ newpos > f.size then (Except.error (S3Err.invalidSeek newpos), f)
  else
    let f1 := if newpos ≠ f.pos ∧ f.bodyOpen then { f with bodyOpen := false } else f
    (Except.ok newpos, { f1 with pos := newpos })

/-- file.go `Close`: a nil body returns nil immediately; otherwise the body
is closed and the offset reset to 0. -/
def FileState.Close (f : FileState) : Option S3Err × FileState :=
  if ¬ f.bodyOpen then (none, f)
  else (none, { f with bodyOpen := false, pos := 0 })

/-! ## Prefix-as-directory listing engine -/

/-- One decoded `ListObjectsV2` page as the listing engine consumes it:
`Contents` stands for the entry names of the page after the filtering,
pattern matching and name-sorting (already applied, since the claims below
quantify over the resulting entries), plus the truncation flag and the next
continuation token. -/
structure listResponse where
  IsTruncated : Bool
  Contents : List String
  NextToken : String
  deriving Repr, DecidableEq

/-- The mutable listing state of a `Prefix` used between `ReadDir` calls:
its path, the continuation token and the end-of-directory flag. -/
structure PrefixState where
  Path : String
  token : String
  dirEOF : Bool
  deriving Repr, DecidableEq

/-- `readDirAt` with the HTTP round trip abstracted into `server` (the page
the store returns for a continuation token): returns the entries, the next
token, and `io.EOF` — the end-of-directory sentinel, distinct from a real
error — exactly when the server reports `IsTruncated = false`.  `n` is
forwarded as `max-keys` and already reflected in the page the server
yields. -/
def readDirAt (server : String → listResponse) (n : Int) (token : String) :
    List String × String × Option S3Err :=
  let ret := server token
  (ret.Contents, ret.NextToken, if ret.IsTruncated then none else some S3Err.eof)

/-- `ReadDir(n)`, the stateful wrapper (fs.ReadDirFile): an already-EOF
directory returns `io.EOF`; a sentinel from `readDirAt` sets `dirEOF` and is
suppressed when entries were returned or `n < 0`; a surviving error is
wrapped in a `fs.PathError` (and the token is not advanced); otherwise the
token advances and the entries are returned. -/
def PrefixState.ReadDir (server : String → listResponse) (p : PrefixState)
    (n : Int) : Except S3Err (List String) × PrefixState :=
  if p.dirEOF then (Except.error S3Err.eof, p)
  else
    let r := readDirAt server n p.token
    let d := r.1
    let next := r.2.1
    let err0 := r.2.2
    let p1 := if err0 = some S3Err.eof then { p with dirEOF := true } else p
    let err1 := if err0 = some S3Err.eof ∧ (d.length > 0 ∨ n < 0) then none else err0
    match err1 with
    | some e => (Except.error (S3Err.pathErr "readdir" p.Path e), p1)
    | none => (Except.ok d, { p1 with token := next })

/-- `Prefix.Read` (fs.File.Read on a pseudo-directory): always fails with a
`fs.PathError` wrapping `fs.ErrInvalid`, reads 0 bytes, and leaves the
listing state untouched. -/
def PrefixState.Read (p : PrefixState) (buf : List Nat) :
    (Nat × S3Err) × PrefixState :=
  ((0, S3Err.pathErr "read" p.Path S3Err.errInvalid), p)

/-! ## VisitDir seek stripping (file.go `VisitDir`)

Directory keys are compared by string order in the source; the model is
generic over a linear order on keys. -/

/-- The strip in `VisitDir`: drop the first entry of a page when its name
equals the seek key (`if len(d) > 0 && d[0].Name() == seek { d = d[1:] }`). -/
def stripSeek {κ : Type} [DecidableEq κ] (seek : κ) : List κ → List κ
  | [] => []
  | x :: xs => if x = seek then xs else x :: xs

/-- The keys `VisitDir` passes to the callback, page by page: each page from
`readDirAt` is stripped of a leading seek entry, then walked in order. -/
def visitDirEmit {κ : Type} [DecidableEq κ] (seek : κ) :
    List (List κ) → List κ
  | [] => []
  | d :: rest => stripSeek seek d ++ visitDirEmit seek rest

/-- A started, otherwise fresh uploader. -/
def startedUploader : Uploader :=
  { initUploader with started := true, id := "upl-1" }

/-- A started uploader that has recorded one part, seen part number 3, and
buffered a background-copy error: a state `Abort` can be called from. -/
def abortInput : Uploader :=
  { started := true, finished := false, part := 7, id := "upl-1",
    parts := [⟨1, [0]⟩], maxpart := 3, asyncerr := some S3Err.httpFail,
    pending := [] }

/-- A file view with no open body whose offset is not 0. -/
def fileNoBody : FileState := { size := 10, pos := 5, bodyOpen := false }

/-! ## Theorems -/

theorem partSizeLoop_ge (t p : Nat) : p ≤ partSizeLoop t p := by
  induction p using partSizeLoop.induct t with
  | case1 x h ih =>
    rw [partSizeLoop, if_pos h]
    omega
  | case2 x h =>
    rw [partSizeLoop, if_neg h]

theorem partSizeLoop_parts_le (t p : Nat) : t / partSizeLoop t p ≤ MaxParts := by
  induction p using partSizeLoop.induct t with
  | case1 x h ih =>
    rw [partSizeLoop, if_pos h]
    exact ih
  | case2 x h =>
    rw [partSizeLoop, if_neg h]
    omega

theorem partSizeLoop_pow (t p : Nat) : ∃ k, partSizeLoop t p = p * 2 ^ k := by
  induction p using partSizeLoop.induct t with
  | case1 x h ih =>
    obtain ⟨k, hk⟩ := ih
    refine ⟨k + 1, ?_⟩
    rw [partSizeLoop, if_pos h, hk]
    ring
  | case2 x h =>
    refine ⟨0, ?_⟩
    rw [partSizeLoop, if_neg h]
    ring

/-- C9: for every non-negative total size, the chosen part size is
`MinPartSize` repeatedly doubled, is at least `MinPartSize`, and yields at
most `MaxParts` parts. -/
theorem calculatePartSize_bounds (totalSize : Nat) :
    MinPartSize ≤ calculatePartSize totalSize ∧
    totalSize / calculatePartSize totalSize ≤ MaxParts ∧
    ∃ k, calculatePartSize totalSize = MinPartSize * 2 ^ k := by
  unfold calculatePartSize
  by_cases h : totalSize > 0
  · rw [if_pos h]
    exact ⟨partSizeLoop_ge _ _, partSizeLoop_parts_le _ _, partSizeLoop_pow _ _⟩
  · rw [if_neg h]
    refine ⟨le_refl _, ?_, 0, by ring⟩
    have : totalSize = 0 := by omega
    simp [this]

/-- C6 counterexample: with an Mbps hint of 80000 and 200 parts the code
chooses 100 workers, while `clamp(80000/800, 1, 40)` is 40 — the worker
count is not clamped to 40. -/
theorem idealParallel_not_clamped :
    idealParallel 80000 200 = 100 ∧ specClampParallel 80000 = 40 ∧
    (100 : Int) ≠ 40 := by
  refine ⟨by decide, by decide, by decide⟩

/-- C6 amended: the worker count is always at least 1, and is at most 40
whenever the Mbps hint is unset or at most 32000; above 32000 it is
`Mbps / 800` (capped by the part count), which exceeds 40. -/
theorem idealParallel_bounds (Mbps parts : Int) :
    1 ≤ idealParallel Mbps parts ∧
    (Mbps ≤ 32000 → idealParallel Mbps parts ≤ 40) := by
  have htd : Mbps ≤ 32000 → Mbps.tdiv 800 ≤ 40 := by
    intro hle
    rcases le_or_lt 0 Mbps with h0 | h0
    · rw [Int.tdiv_eq_ediv h0 (by norm_num)]
      omega
    · have h1 : (-Mbps).tdiv 800 = -(Mbps.tdiv 800) := Int.neg_tdiv Mbps 800
      have h2 : 0 ≤ (-Mbps).tdiv 800 := Int.tdiv_nonneg (by omega) (by norm_num)
      omega
  simp only [idealParallel]
  by_cases hm : Mbps ≠ 0
  · simp only [if_pos hm]
    by_cases hp : parts < Mbps.tdiv 800 ∧ parts > 0
    · simp only [if_pos hp]
      exact ⟨by omega, fun h => by have := htd h; omega⟩
    · simp only [if_neg hp]
      by_cases hz : Mbps.tdiv 800 ≤ 0
      · simp only [if_pos hz]
        exact ⟨le_refl _, fun _ => by omega⟩
      · simp only [if_neg hz]
        exact ⟨by omega, htd⟩
  · simp only [if_neg hm]
    by_cases hp : parts < 40 ∧ parts > 0
    · simp only [if_pos hp]
      exact ⟨by omega, fun _ => by omega⟩
    · simp only [if_neg hp]
      norm_num

/-- C6 amended, witnessed at a concrete input: with an 8000 Mbps hint and
100 parts the worker count is between 1 and 40. -/
theorem idealParallel_bounds_witness :
    1 ≤ idealParallel 8000 100 ∧ idealParallel 8000 100 ≤ 40 := by
  have h := idealParallel_bounds 8000 100
  exact ⟨h.1, h.2 (by decide)⟩

/-- C3 (code bug): a successful `Abort` on a started, unfinished uploader
with `maxpart = 3` and a buffered background-copy error resets `part`, `id`,
`started`, `finished` and `parts`, but leaves `maxpart = 3` and the buffered
error in place: the state is not the initial state, so a retried upload
would see stale state. -/
theorem abort_keeps_maxpart_and_asyncerr :
    (abortInput.Abort true).1 = none ∧
    (abortInput.Abort true).2.part = 0 ∧
    (abortInput.Abort true).2.id = "" ∧
    (abortInput.Abort true).2.started = false ∧
    (abortInput.Abort true).2.finished = false ∧
    (abortInput.Abort true).2.parts = [] ∧
    (abortInput.Abort true).2.maxpart = 3 ∧
    (abortInput.Abort true).2.asyncerr = some S3Err.httpFail ∧
    (abortInput.Abort true).2 ≠ initUploader := by
  refine ⟨rfl, rfl, rfl, rfl, rfl, rfl, rfl, rfl, by decide⟩

/-- C8 counterexample: `Close` on a file whose body is not open returns nil
but does not reset the offset: from offset 5 with no body, the offset is
still 5 after `Close`. -/
theorem close_without_body_keeps_offset :
    (fileNoBody.Close).1 = none ∧
    (fileNoBody.Close).2.pos = 5 ∧
    (fileNoBody.Close).2.pos ≠ 0 := by
  refine ⟨rfl, rfl, by decide⟩

/-- C8 amended: `Close` closes an open body stream and resets the offset to
0; when no body is open it returns nil and leaves the state — including the
offset — unchanged. -/
theorem close_resets_offset_iff_body_open (f : FileState) :
    (f.bodyOpen = true →
      f.Close = (none, { f with bodyOpen := false, pos := 0 })) ∧
    (f.bodyOpen = false → f.Close = (none, f)) := by
  constructor <;> intro h <;> simp [FileState.Close, h]

/-- C8 amended, witnessed: closing a file with an open body at offset 5
yields offset 0 and no open body. -/
theorem close_resets_offset_witness :
    (FileState.mk 10 5 true).Close = (none, FileState.mk 10 0 false) :=
  (close_resets_offset_iff_body_open (FileState.mk 10 5 true)).1 rfl

/-- C10: reading a pseudo-directory handle returns 0 bytes and a
`fs.PathError` wrapping `fs.ErrInvalid`, and leaves the listing state
(continuation token and end-of-directory flag) unchanged. -/
theorem prefixRead_always_invalid (p : PrefixState) (buf : List Nat) :
    p.Read buf = ((0, S3Err.pathErr "read" p.Path S3Err.errInvalid), p) ∧
    errorsIs (p.Read buf).1.2 S3Err.errInvalid = true ∧
    (p.Read buf).2.token = p.token ∧
    (p.Read buf).2.dirEOF = p.dirEOF := by
  refine ⟨rfl, ?_, rfl, rfl⟩
  simp [PrefixState.Read, errorsIs]

/-- C7: `Seek` rejects a computed position that is negative or beyond the
object size, leaving the state (offset included) unchanged; an accepted
position becomes the new offset, the invariant `0 ≤ offset ≤ size` holds
afterwards, and a body open while the position changes is closed (and kept
when the position does not change). -/
theorem seek_checks_bounds (f : FileState) (offset : Int) (whence : Whence) :
    (newOffset f offset whence < 0 ∨ newOffset f offset whence > f.size →
      f.Seek offset whence =
        (Except.error (S3Err.invalidSeek (newOffset f offset whence)), f)) ∧
    (0 ≤ newOffset f offset whence → newOffset f offset whence ≤ f.size →
      (f.Seek offset whence).1 = Except.ok (newOffset f offset whence) ∧
      (f.Seek offset whence).2.pos = newOffset f offset whence ∧
      0 ≤ (f.Seek offset whence).2.pos ∧
      (f.Seek offset whence).2.pos ≤ (f.Seek offset whence).2.size ∧
      (newOffset f offset whence ≠ f.pos → f.bodyOpen = true →
        (f.Seek offset whence).2.bodyOpen = false) ∧
      (newOffset f offset whence = f.pos →
        (f.Seek offset whence).2.bodyOpen = f.bodyOpen)) := by
  constructor
  · intro h
    simp only [FileState.Seek]
    rw [if_pos h]
  · intro h0 h1
    simp only [FileState.Seek]
    rw [if_neg (by omega)]
    by_cases hb : newOffset f offset whence ≠ f.pos ∧ f.bodyOpen
    · rw [if_pos hb]
      refine ⟨rfl, rfl, h0, h1, fun _ _ => rfl, fun heq => absurd heq hb.1⟩
    · rw [if_neg hb]
      refine ⟨rfl, rfl, h0, h1, fun hne hop => absurd ⟨hne, hop⟩ hb, fun _ => rfl⟩

/-- C7, witnessed: on a 10-byte file at offset 5 with an open body,
`Seek(7, SeekStart)` succeeds, moves the offset to 7 within bounds, and
closes the body; `Seek(11, SeekStart)` is rejected unchanged. -/
theorem seek_checks_bounds_witness :
    ((FileState.mk 10 5 true).Seek 7 Whence.seekStart).1 = Except.ok 7 ∧
    ((FileState.mk 10 5 true).Seek 7 Whence.seekStart).2.pos = 7 ∧
    ((FileState.mk 10 5 true).Seek 7 Whence.seekStart).2.bodyOpen = false ∧
    (FileState.mk 10 5 true).Seek 11 Whence.seekStart =
      (Except.error (S3Err.invalidSeek 11), FileState.mk 10 5 true) := by
  have h := seek_checks_bounds (FileState.mk 10 5 true) 7 Whence.seekStart
  have h2 := (h.2 (by decide) (by decide))
  have hr := seek_checks_bounds (FileState.mk 10 5 true) 11 Whence.seekStart
  exact ⟨h2.1, h2.2.1, h2.2.2.2.2.1 (by decide) rfl, hr.1 (by decide)⟩

theorem stripSeek_gt {κ : Type} [LinearOrder κ] (seek : κ) (page : List κ)
    (hsorted : page.Pairwise (· < ·)) (hseek : ∀ k ∈ page, seek ≤ k) :
    ∀ k ∈ stripSeek seek page, seek < k := by
  cases page with
  | nil => simp [stripSeek]
  | cons x xs =>
    rw [List.pairwise_cons] at hsorted
    by_cases hx : x = seek
    · subst hx
      simp only [stripSeek, if_pos rfl]
      intro k hk
      exact hsorted.1 k hk
    · simp only [stripSeek, if_neg hx]
      intro k hk
      have hsx : seek < x :=
        lt_of_le_of_ne (hseek x (List.mem_cons_self x xs)) (Ne.symm hx)
      rcases List.mem_cons.mp hk with h | h
      · exact h ▸ hsx
      · exact lt_trans hsx (hsorted.1 k h)

/-- C4: when the listing pages returned for a walk with seek key `seek`
contain only keys ≥ `seek` (the ListObjectsV2 start-after includes the seek
key itself) and are strictly ascending overall, the entries `VisitDir`
passes to the callback are exactly keys strictly greater than `seek`: the
seek key is stripped and never emitted. -/
theorem visitDir_strips_seek {κ : Type} [LinearOrder κ] (seek : κ)
    (pages : List (List κ))
    (hsorted : pages.flatten.Pairwise (· < ·))
    (hseek : ∀ k ∈ pages.flatten, seek ≤ k) :
    (∀ k ∈ visitDirEmit seek pages, seek < k) ∧
    seek ∉ visitDirEmit seek pages ∧
    (visitDirEmit seek pages).all (fun k => decide (seek < k)) = true := by
  have main : ∀ k ∈ visitDirEmit seek pages, seek < k := by
    induction pages with
    | nil => simp [visitDirEmit]
    | cons d rest ih =>
      rw [List.flatten_cons, List.pairwise_append] at hsorted
      intro k hk
      rcases List.mem_append.mp hk with h | h
      · refine stripSeek_gt seek d hsorted.1 ?_ k h
        intro a ha
        exact hseek a (by rw [List.flatten_cons]; exact List.mem_append_left _ ha)
      · refine ih hsorted.2.1 ?_ k h
        intro a ha
        exact hseek a (by rw [List.flatten_cons]; exact List.mem_append_right _ ha)
  refine ⟨main, fun hmem => lt_irrefl seek (main seek hmem), ?_⟩
  rw [List.all_eq_true]
  intro k hk
  exact decide_eq_true (main k hk)

/-- C4, witnessed: with seek key 3 and pages `[[3,4,5],[7]]` (keys ≥ 3,
ascending), every emitted key is strictly greater than 3. -/
theorem visitDir_strips_seek_witness :
    (visitDirEmit 3 [[3, 4, 5], [7]]).all (fun k => decide (3 < k)) = true :=
  (visitDir_strips_seek 3 [[3, 4, 5], [7]] (by decide) (by decide)).2.2

/-- C5: on the last page (`IsTruncated = false`), `readDirAt` returns the
collected entries together with the `io.EOF` sentinel; the stateful
`ReadDir(-1)` returns those entries with no error while recording
end-of-directory, and only a subsequent `ReadDir` on the same Prefix
returns `io.EOF`. -/
theorem readDir_suppresses_eof (server : String → listResponse)
    (pa t tok2 : String) (m : Int)
    (hlast : (server t).IsTruncated = false) :
    readDirAt server (-1) t =
      ((server t).Contents, (server t).NextToken, some S3Err.eof) ∧
    PrefixState.ReadDir server ⟨pa, t, false⟩ (-1) =
      (Except.ok (server t).Contents, ⟨pa, (server t).NextToken, true⟩) ∧
    PrefixState.ReadDir server ⟨pa, tok2, true⟩ m =
      (Except.error S3Err.eof, ⟨pa, tok2, true⟩) := by
  refine ⟨?_, ?_, ?_⟩
  · simp [readDirAt, hlast]
  · simp [PrefixState.ReadDir, readDirAt, hlast]
  · simp [PrefixState.ReadDir]

/-- C5, witnessed: a one-page server with entries `["x", "y"]` and
`IsTruncated = false`: `ReadDir(-1)` yields the entries with no error and
sets the EOF flag; the next `ReadDir` yields `io.EOF`. -/
theorem readDir_suppresses_eof_witness :
    PrefixState.ReadDir (fun _ => ⟨false, ["x", "y"], "next"⟩)
        ⟨"dir/", "", false⟩ (-1) =
      (Except.ok ["x", "y"], ⟨"dir/", "next", true⟩) ∧
    PrefixState.ReadDir (fun _ => ⟨false, ["x", "y"], "next"⟩)
        ⟨"dir/", "next", true⟩ 5 =
      (Except.error S3Err.eof, ⟨"dir/", "next", true⟩) := by
  have h := readDir_suppresses_eof (fun _ => ⟨false, ["x", "y"], "next"⟩)
    "dir/" "" "next" 5 rfl
  exact ⟨h.2.1, h.2.2⟩

/-- C2: on a started uploader, `Upload` of a part below `MinPartSize`
returns an error leaving the state (the recorded parts included) unchanged;
`CopyFrom` with a valid range whose selected size is below `MinPartSize`
returns an error leaving the state unchanged (no background copy is
launched); only the final tail handed to `Close` escapes the minimum: for a
non-empty tail of any size, `Close` succeeds and records it. -/
theorem min_part_size_enforced (u : Uploader) (num : Int)
    (contents : List Nat) (src : Reader) (start endPos : Int)
    (tail : List Nat)
    (hs : u.started = true) (hf : u.finished = false)
    (hp : u.pending = []) (ha : u.asyncerr = none) :
    (contents.length < MinPartSize →
      u.Upload num contents =
        (some (S3Err.sizeBelowMin contents.length MinPartSize), u)) ∧
    (0 ≤ start → 0 ≤ endPos → endPos ≤ src.Size →
      copySelectedSize src.Size start endPos < (MinPartSize : Int) →
      u.CopyFrom num src start endPos =
        (some (S3Err.sizeBelowMin (copySelectedSize src.Size start endPos)
          MinPartSize), u)) ∧
    (tail ≠ [] →
      (u.Close tail).1 = Except.ok
        (((List.insertionSort (fun a b : tagpart => a.Num ≤ b.Num)
            (u.parts ++ [⟨u.maxpart + 1, tail⟩])).map tagpart.data).flatten)) := by
  refine ⟨?_, ?_, ?_⟩
  · intro hlen
    simp [Uploader.Upload, hs, hlen]
  · intro h0 h1 h2 hsmall
    simp only [Uploader.CopyFrom, hs]
    rw [if_neg (by simp), if_neg (by omega), if_neg (by omega), if_pos hsmall]
  · intro htail
    have hlen : tail.length > 0 := List.length_pos.mpr htail
    simp [Uploader.Close, hs, hf, uploadPart, hp, ha, hlen]

/-- C2, witnessed: an empty `Upload` part is rejected with the state
unchanged; a whole-object copy of a 3-byte source is rejected with the
state unchanged; `Close` with the 1-byte tail `[7]` succeeds. -/
theorem min_part_size_enforced_witness :
    startedUploader.Upload 2 [] =
      (some (S3Err.sizeBelowMin 0 MinPartSize), startedUploader) ∧
    startedUploader.CopyFrom 1 ⟨3, [1, 2, 3]⟩ 0 0 =
      (some (S3Err.sizeBelowMin 3 MinPartSize), startedUploader) ∧
    (startedUploader.Close [7]).1 = Except.ok [7] := by
  have h := min_part_size_enforced startedUploader 2 [] ⟨3, [1, 2, 3]⟩ 0 0 [7]
    rfl rfl rfl rfl
  have h1 := h.1 (by decide)
  have h2 := h.2.1 (by decide) (by decide) (by decide) (by decide)
  have h3 := h.2.2 (by decide)
  refine ⟨h1, ?_, ?_⟩
  · have hx := min_part_size_enforced startedUploader 1 [] ⟨3, [1, 2, 3]⟩ 0 0 [7]
      rfl rfl rfl rfl
    exact hx.2.1 (by decide) (by decide) (by decide) (by decide)
  · exact h3

/-- C1: on a started uploader with no recorded parts, uploading parts 3, 1
and 2 out of order (each at least `MinPartSize`) and then closing with no
final tail succeeds; `Close` sorts the recorded parts ascending by part
number, so the manifest lists parts 1, 2, 3 and the content of the final object
is `p1 ++ p2 ++ p3`. -/
theorem upload_out_of_order_sorted (u : Uploader) (p1 p2 p3 : List Nat)
    (hs : u.started = true) (hf : u.finished = false)
    (hparts : u.parts = []) (hp : u.pending = []) (ha : u.asyncerr = none)
    (h1 : MinPartSize ≤ p1.length) (h2 : MinPartSize ≤ p2.length)
    (h3 : MinPartSize ≤ p3.length) :
    (u.Upload 3 p3).1 = none ∧
    ((u.Upload 3 p3).2.Upload 1 p1).1 = none ∧
    (((u.Upload 3 p3).2.Upload 1 p1).2.Upload 2 p2).1 = none ∧
    (((((u.Upload 3 p3).2.Upload 1 p1).2.Upload 2 p2).2.Close []).1 =
      Except.ok (p1 ++ p2 ++ p3)) ∧
    (((((u.Upload 3 p3).2.Upload 1 p1).2.Upload 2 p2).2.Close []).2.parts.map
      tagpart.Num = [1, 2, 3]) ∧
    (((((u.Upload 3 p3).2.Upload 1 p1).2.Upload 2 p2).2.Close []).2.finished
      = true) := by
  have hn1 : ¬ p1.length < MinPartSize := by omega
  have hn2 : ¬ p2.length < MinPartSize := by omega
  have hn3 : ¬ p3.length < MinPartSize := by omega
  simp [Uploader.Upload, Uploader.Close, uploadPart, hs, hf, hparts, hp, ha,
    hn1, hn2, hn3, List.insertionSort, List.orderedInsert]

/-- C1, witnessed: with three concrete parts of exactly `MinPartSize` bytes
(filled with 1, 2 and 3 respectively), the out-of-order upload followed by
`Close(nil)` yields the concatenation in part-number order. -/
theorem upload_out_of_order_sorted_witness :
    (((((startedUploader.Upload 3 (List.replicate MinPartSize 3)).2.Upload 1
        (List.replicate MinPartSize 1)).2.Upload 2
        (List.replicate MinPartSize 2)).2.Close []).1 =
      Except.ok (List.replicate MinPartSize 1 ++ List.replicate MinPartSize 2
        ++ List.replicate MinPartSize 3)) :=
  (upload_out_of_order_sorted startedUploader (List.replicate MinPartSize 1)
    (List.replicate MinPartSize 2) (List.replicate MinPartSize 3)
    rfl rfl rfl rfl rfl (by simp) (by simp) (by simp)).2.2.2.1

end S3
